import Mathlib

/-!
Verification development for the Cetus liquidity rebalance bot.

The repository is a TypeScript bot that keeps a concentrated-liquidity
position centred on the current pool price.  This file gives a shallow
embedding of the rebalance decision-and-execution engine:

* the range calculator and decision engine of the position monitor
  (`calculateOptimalRange`, `isPositionInRange`, `shouldRebalance`);
  the monitor service source file is not present in the repository
  snapshot (only its tests and callers are), so these are modelled from
  the design document, and checked against the expected values of the
  repository's own test files;
* the full-mode orchestrator `RebalanceService.rebalancePosition`
  (src/services/rebalance.ts, part_000), with ledger effects made
  explicit as oracle inputs and a log of submitted transactions;
* the simple-mode orchestrator `SimpleRebalanceService`
  (src/services/rebalance-simple.ts, part_006): `mergeCoins`,
  `removeLiquidity` and `addLiquidity` with their two-attempt retry
  loops, over an explicit ledger-oracle state;
* the bot lifecycle state machine (`CetusRebalanceBot.start` / `stop`,
  part_007/part_008).

Integer ticks are embedded as `Int` (JavaScript numbers hold them
exactly in the ranges used), the rebalance threshold as `ℚ`, and coin
balances as `Nat`.
-/

namespace Cetus

/-- Pool state snapshot, mirroring the `PoolInfo` record produced by the
monitor service (fields used by the rebalance logic). -/
structure PoolInfo where
  poolAddress : String
  currentTickIndex : Int
  tickSpacing : Int
  coinTypeA : String
  coinTypeB : String
  deriving Repr, DecidableEq

/-- Position snapshot, mirroring the `PositionInfo` record of the monitor
service (fields used by the rebalance logic). -/
structure PositionInfo where
  positionId : String
  poolAddress : String
  tickLower : Int
  tickUpper : Int
  liquidity : Nat
  inRange : Bool
  deriving Repr, DecidableEq

/-- Modelled from the spec: the monitor service source file
(src/services/monitor.ts) is missing from the repository snapshot, so the
range calculator is taken from the design document, section 4.1.
Default policy (no configured width): `lower = floor(t / s) * s`,
`upper = lower + s` (floor division, so correct for negative ticks).
Centred policy (configured total width `W`): `half = W / 2`,
`lower = floor((t - half) / s) * s`, `upper = ceil((t + half) / s) * s`;
the fractions are represented exactly by doubling numerator and
denominator, so `floor((t - W/2)/s) = fdiv (2t - W) (2s)` and
`ceil((t + W/2)/s) = -fdiv (-(2t + W)) (2s)`.  The function is total;
`tickSpacing ≤ 0` is a caller contract violation per the spec. -/
def calculateOptimalRange (currentTick tickSpacing : Int) :
    Option Int → Int × Int
  | some w =>
      (Int.fdiv (2 * currentTick - w) (2 * tickSpacing) * tickSpacing,
       -(Int.fdiv (-(2 * currentTick + w)) (2 * tickSpacing)) * tickSpacing)
  | none =>
      (Int.fdiv currentTick tickSpacing * tickSpacing,
       Int.fdiv currentTick tickSpacing * tickSpacing + tickSpacing)

/-- Modelled from the spec: the monitor service source file is missing
from the repository snapshot; the in-range test is taken from the design
document, section 4.2: true iff `lower ≤ currentTick ≤ upper`,
boundary-inclusive on both ends. -/
def isPositionInRange (lower upper currentTick : Int) : Bool :=
  decide (lower ≤ currentTick) && decide (currentTick ≤ upper)

/-- Modelled from the spec: the monitor service source file is missing
from the repository snapshot; the rebalance decision is taken from the
design document, section 4.3.  True when the stored in-range flag is
false, or when the current tick lies within
`margin = rebalanceThreshold * (upper - lower)` of either boundary. -/
def shouldRebalance (threshold : ℚ) (position : PositionInfo)
    (pool : PoolInfo) : Bool :=
  if position.inRange = false then true
  else
    let margin : ℚ :=
      threshold * ((position.tickUpper - position.tickLower : Int) : ℚ)
    decide (((pool.currentTickIndex - position.tickLower : Int) : ℚ) < margin)
      || decide (((position.tickUpper - pool.currentTickIndex : Int) : ℚ) < margin)

/-- C1: for every integer `t` and every `s > 0`,
`calculateOptimalRange t s` with no configured width returns
`lower = floor(t/s)*s` and `upper = lower + s`, so `lower ≤ t < upper`
(floor division, hence also for negative `t`) and both bounds are exact
multiples of `s`; in particular `t = 1000, s = 60` gives `(960, 1020)`
and `t = -100, s = 60` gives `(-120, -60)`. -/
theorem calculateOptimalRange_default_correct :
    (∀ t s : Int, 0 < s →
      (calculateOptimalRange t s none).1 ≤ t ∧
      t < (calculateOptimalRange t s none).2 ∧
      s ∣ (calculateOptimalRange t s none).1 ∧
      s ∣ (calculateOptimalRange t s none).2 ∧
      (calculateOptimalRange t s none).2 =
        (calculateOptimalRange t s none).1 + s) ∧
    calculateOptimalRange 1000 60 none = (960, 1020) ∧
    calculateOptimalRange (-100) 60 none = (-120, -60) := by
  refine ⟨?_, by decide, by decide⟩
  intro t s hs
  simp only [calculateOptimalRange]
  rw [Int.fdiv_eq_ediv _ (le_of_lt hs)]
  have hd : t / s * s + t % s = t := by
    rw [mul_comm]; exact Int.ediv_add_emod t s
  have h2 := Int.emod_nonneg t (ne_of_gt hs)
  have h3 := Int.emod_lt_of_pos t hs
  exact ⟨by omega, by omega, dvd_mul_left s _,
    dvd_add (dvd_mul_left s _) dvd_rfl, trivial⟩

/-- Witness for C1: the universally quantified part applied at
`t = 1000`, `s = 60`, discharging `0 < s` there. -/
theorem calculateOptimalRange_default_correct_witness :
    (calculateOptimalRange 1000 60 none).1 ≤ 1000 ∧
    (1000 : Int) < (calculateOptimalRange 1000 60 none).2 ∧
    (60 : Int) ∣ (calculateOptimalRange 1000 60 none).1 ∧
    (60 : Int) ∣ (calculateOptimalRange 1000 60 none).2 ∧
    (calculateOptimalRange 1000 60 none).2 =
      (calculateOptimalRange 1000 60 none).1 + 60 :=
  calculateOptimalRange_default_correct.1 1000 60 (by decide)

/-- C2: `isPositionInRange lower upper t` is true iff
`lower ≤ t ≤ upper`, boundary-inclusive on both ends; in particular it
is true at both boundaries of `[-100, 100]` and false one unit outside
either boundary. -/
theorem isPositionInRange_iff :
    (∀ lower upper t : Int,
      isPositionInRange lower upper t = true ↔ lower ≤ t ∧ t ≤ upper) ∧
    isPositionInRange (-100) 100 (-100) = true ∧
    isPositionInRange (-100) 100 100 = true ∧
    isPositionInRange (-100) 100 (-101) = false ∧
    isPositionInRange (-100) 100 101 = false := by
  refine ⟨?_, by decide, by decide, by decide, by decide⟩
  intro lower upper t
  simp [isPositionInRange]

/-- C3: with `0 < threshold < 1`, `shouldRebalance` is true whenever the
stored in-range flag is false, and when the flag is true it is true
exactly when the current tick lies within
`margin = threshold * (upper - lower)` of either boundary. -/
theorem shouldRebalance_spec (threshold : ℚ) (position : PositionInfo)
    (pool : PoolInfo) (_hpos : 0 < threshold) (_hlt : threshold < 1) :
    (position.inRange = false →
      shouldRebalance threshold position pool = true) ∧
    (position.inRange = true →
      (shouldRebalance threshold position pool = true ↔
        ((pool.currentTickIndex - position.tickLower : Int) : ℚ) <
            threshold * ((position.tickUpper - position.tickLower : Int) : ℚ) ∨
          ((position.tickUpper - pool.currentTickIndex : Int) : ℚ) <
            threshold * ((position.tickUpper - position.tickLower : Int) : ℚ))) := by
  constructor
  · intro h
    simp [shouldRebalance, h]
  · intro h
    simp [shouldRebalance, h]

/-- Example position used to witness the decision engine: range
`[-1000, 1000]`, flagged in-range (the end-to-end scenario of the
design document, section 8). -/
def examplePositionIn : PositionInfo :=
  { positionId := "pos1", poolAddress := "0x123", tickLower := -1000,
    tickUpper := 1000, liquidity := 1000000, inRange := true }

/-- The same position with the stored in-range flag false. -/
def examplePositionOut : PositionInfo :=
  { examplePositionIn with inRange := false }

/-- Pool snapshot at tick `-950` (50 ticks from the lower bound, 2.5% of
the 2000-tick width, inside the 5% margin). -/
def examplePoolNear : PoolInfo :=
  { poolAddress := "0x123", currentTickIndex := -950, tickSpacing := 10,
    coinTypeA := "0xA", coinTypeB := "0xB" }

/-- Pool snapshot centred at tick `0` (beyond the 5% margin from both
boundaries). -/
def examplePoolMid : PoolInfo :=
  { examplePoolNear with currentTickIndex := 0 }

/-- Witness for C3: with threshold `1/20`, an out-of-range flag forces a
rebalance, tick `-950` in `[-1000, 1000]` triggers one, and tick `0`
does not. -/
theorem shouldRebalance_spec_witness :
    shouldRebalance (1/20) examplePositionOut examplePoolMid = true ∧
    shouldRebalance (1/20) examplePositionIn examplePoolNear = true ∧
    shouldRebalance (1/20) examplePositionIn examplePoolMid = false := by
  refine ⟨?_, ?_, ?_⟩
  · exact (shouldRebalance_spec (1/20) examplePositionOut examplePoolMid
      (by norm_num) (by norm_num)).1 rfl
  · exact ((shouldRebalance_spec (1/20) examplePositionIn examplePoolNear
      (by norm_num) (by norm_num)).2 rfl).mpr (Or.inl (by norm_num [examplePositionIn, examplePoolNear]))
  · have h := (shouldRebalance_spec (1/20) examplePositionIn examplePoolMid
      (by norm_num) (by norm_num)).2 rfl
    cases hb : shouldRebalance (1/20) examplePositionIn examplePoolMid with
    | false => rfl
    | true =>
        rcases h.mp hb with h1 | h1 <;>
          norm_num [examplePositionIn, examplePoolMid] at h1

/-! ## Ledger effects

Every transaction submission in the source is a `signAndExecuteTransaction`
(or `signAndExecuteTransactionBlock`) call whose result carries
`effects.status.status` and `effects.status.error`; the call may also
throw.  Both services judge success solely by comparing the reported
status string to the literal string success. -/

/-- Outcome of one sign-and-execute call: either the call threw, or it
returned a result with an execution status string, an optional error
string (`effects.status.error`) and a digest. -/
inductive ExecOutcome where
  | threw (msg : String)
  | returned (status : String) (error : Option String) (digest : String)
  deriving Repr, DecidableEq

/-- Judge a transaction outcome the way both services do: a thrown error
propagates; a returned result is a success only when the status string
equals the literal success, otherwise an error built from `failMsg` and
the reported error (defaulting to the Unknown-error text) is raised. -/
def judgeExec (failMsg : String) : ExecOutcome → Except String String
  | .threw msg => .error msg
  | .returned status err digest =>
      if status = "success" then .ok digest
      else .error (failMsg ++ ": " ++ err.getD "Unknown error")

/-- Description of a submitted ledger transaction, for the transaction
log of a run: a remove-liquidity transaction, an add-liquidity /
open-position transaction, or a coin-merge transaction recording the
coin type, the target record and the source records. -/
inductive TxDesc where
  | removeLiq
  | addLiq
  | merge (coinType : String) (targetId : String) (sourceIds : List String)
  deriving Repr, BEq, DecidableEq

/-- `RebalanceResult` of src/services/rebalance.ts (part_000): success
flag, optional digest, optional error, optional old and new tick
ranges. -/
structure RebalanceResult where
  success : Bool
  transactionDigest : Option String := none
  error : Option String := none
  oldPosition : Option (Int × Int) := none
  newPosition : Option (Int × Int) := none
  deriving Repr, DecidableEq

/-! ## Full-mode orchestrator (src/services/rebalance.ts, part_000) -/

/-- The configuration fields of `BotConfig` read by the full-mode
rebalance path (src/config, part_006/part_008). -/
structure Config000 where
  lowerTick : Option Int := none
  upperTick : Option Int := none
  rangeWidth : Option Int := none
  tokenAAmount : Option Nat := none
  tokenBAmount : Option Nat := none
  deriving Repr, DecidableEq

/-- JavaScript truthiness of an optional tick value, as used by
`this.config.lowerTick && this.config.upperTick` in
`createNewPosition`: undefined and `0` are falsy. -/
def jsTruthy : Option Int → Bool
  | none => false
  | some v => v != 0

/-- Oracle environment for one `rebalancePosition` run of the full-mode
service: the results of the pool and position reads, the dry-run flag,
the configuration, the wallet balances read in `addLiquidity`, and the
execution outcome of the (single-attempt) remove and add submissions. -/
structure Env000 where
  poolInfoRes : Except String PoolInfo
  positionsRes : Except String (List PositionInfo)
  dryRun : Bool
  config : Config000
  balanceA : Nat
  balanceB : Nat
  removeOutcome : ExecOutcome
  addOutcome : ExecOutcome

/-- `RebalanceService.removeLiquidity` (part_000, lines 173-237): re-reads
the wallet positions, fails when the position id is not found, then
submits the remove-liquidity transaction once and judges it by the
reported status (the Transaction-failed message of line 217).  The
returned list is the log of submitted transactions. -/
def removeLiquidity000 (env : Env000) (positionId : String) :
    Except String Unit × List TxDesc :=
  match env.positionsRes with
  | .error e => (.error e, [])
  | .ok positions =>
    match positions.find? (fun p => p.positionId = positionId) with
    | none => (.error ("Position " ++ positionId ++ " not found"), [])
    | some _ =>
      match judgeExec "Transaction failed" env.removeOutcome with
      | .error e => (.error e, [.removeLiq])
      | .ok _ => (.ok (), [.removeLiq])

/-- `RebalanceService.addLiquidity` (part_000, lines 239-367): reads both
wallet balances, takes the configured amounts or
`max(1000, balance / 10)`, fails when either amount is zero, then
submits the open-position transaction once and judges it by the
reported status (the Failed-to-open-position message of line 311).
The tick range only enters the transaction payload, so it does not
appear in the observable behaviour modelled here. -/
def addLiquidity000 (env : Env000) : Except String String × List TxDesc :=
  let amountA := match env.config.tokenAAmount with
    | some a => a
    | none => max 1000 (env.balanceA / 10)
  let amountB := match env.config.tokenBAmount with
    | some b => b
    | none => max 1000 (env.balanceB / 10)
  if amountA = 0 ∨ amountB = 0 then
    (.error "Insufficient token balance to add liquidity. Please ensure you have both tokens in your wallet.", [])
  else
    match judgeExec "Failed to open position" env.addOutcome with
    | .error e => (.error e, [.addLiq])
    | .ok digest => (.ok digest, [.addLiq])

/-- `RebalanceService.createNewPosition` (part_000, lines 138-171): uses
the configured tick range when both bounds are truthy, otherwise the
calculated optimal range; in dry-run mode it returns success without
submitting anything. -/
def createNewPosition000 (env : Env000) (poolInfo : PoolInfo) :
    RebalanceResult × List TxDesc :=
  let range :=
    if jsTruthy env.config.lowerTick && jsTruthy env.config.upperTick then
      (env.config.lowerTick.getD 0, env.config.upperTick.getD 0)
    else
      calculateOptimalRange poolInfo.currentTickIndex poolInfo.tickSpacing
        env.config.rangeWidth
  if env.dryRun then
    ({ success := true, newPosition := some range }, [])
  else
    match addLiquidity000 env with
    | (.error e, log) => ({ success := false, error := some e }, log)
    | (.ok digest, log) =>
        ({ success := true, transactionDigest := some digest,
           newPosition := some range }, log)

/-- `RebalanceService.rebalancePosition` (part_000, lines 43-136): read
pool state and positions, filter to the pool; with no position, create a
new one (directly reporting the computed range in dry-run mode); with a
position, compute the fresh optimal range, skip as a no-op when both
bounds moved by less than one tick-spacing unit, short-circuit in
dry-run mode, else remove liquidity and add liquidity at the new range.
Any raised error is caught and reported as a failed result. -/
def rebalancePosition000 (env : Env000) (poolAddress : String) :
    RebalanceResult × List TxDesc :=
  match env.poolInfoRes with
  | .error e => ({ success := false, error := some e }, [])
  | .ok poolInfo =>
    match env.positionsRes with
    | .error e => ({ success := false, error := some e }, [])
    | .ok positions =>
      match positions.filter (fun p => p.poolAddress = poolAddress) with
      | [] =>
        if env.dryRun then
          ({ success := true,
             newPosition := some (calculateOptimalRange
               poolInfo.currentTickIndex poolInfo.tickSpacing
               env.config.rangeWidth) }, [])
        else
          createNewPosition000 env poolInfo
      | position :: _ =>
        let range := calculateOptimalRange poolInfo.currentTickIndex
          poolInfo.tickSpacing env.config.rangeWidth
        if abs (position.tickLower - range.1) < poolInfo.tickSpacing ∧
            abs (position.tickUpper - range.2) < poolInfo.tickSpacing then
          ({ success := true,
             oldPosition := some (position.tickLower, position.tickUpper),
             newPosition := some range }, [])
        else if env.dryRun then
          ({ success := true,
             oldPosition := some (position.tickLower, position.tickUpper),
             newPosition := some range }, [])
        else
          match removeLiquidity000 env position.positionId with
          | (.error e, log) => ({ success := false, error := some e }, log)
          | (.ok _, log1) =>
            match addLiquidity000 env with
            | (.error e, log2) =>
                ({ success := false, error := some e }, log1 ++ log2)
            | (.ok digest, log2) =>
                ({ success := true, transactionDigest := some digest,
                   oldPosition := some (position.tickLower, position.tickUpper),
                   newPosition := some range }, log1 ++ log2)

/-- C4: when the freshly computed target range differs from the existing
position range by less than one tick-spacing unit on both bounds, the
rebalance run is a no-op: it reports success carrying the old and the
new range and submits zero transactions. -/
theorem rebalance_noop_skip (env : Env000) (poolAddress : String)
    (poolInfo : PoolInfo) (positions : List PositionInfo)
    (position : PositionInfo) (rest : List PositionInfo)
    (hpool : env.poolInfoRes = .ok poolInfo)
    (hpos : env.positionsRes = .ok positions)
    (hfilter : positions.filter (fun p => p.poolAddress = poolAddress) =
      position :: rest)
    (hlow : abs (position.tickLower - (calculateOptimalRange
      poolInfo.currentTickIndex poolInfo.tickSpacing
      env.config.rangeWidth).1) < poolInfo.tickSpacing)
    (hup : abs (position.tickUpper - (calculateOptimalRange
      poolInfo.currentTickIndex poolInfo.tickSpacing
      env.config.rangeWidth).2) < poolInfo.tickSpacing) :
    rebalancePosition000 env poolAddress =
      ({ success := true,
         oldPosition := some (position.tickLower, position.tickUpper),
         newPosition := some (calculateOptimalRange
           poolInfo.currentTickIndex poolInfo.tickSpacing
           env.config.rangeWidth) }, []) := by
  simp only [rebalancePosition000, hpool, hpos, hfilter]
  rw [if_pos ⟨hlow, hup⟩]

/-- Pool snapshot used by the orchestrator witnesses: tick 0, spacing
10, no configured width, so the fresh target range is `(0, 10)`. -/
def witnessPool : PoolInfo :=
  { poolAddress := "0x123", currentTickIndex := 0, tickSpacing := 10,
    coinTypeA := "0xA", coinTypeB := "0xB" }

/-- Existing position matching the fresh target range exactly. -/
def noopPosition : PositionInfo :=
  { positionId := "pos1", poolAddress := "0x123", tickLower := 0,
    tickUpper := 10, liquidity := 1000000, inRange := true }

/-- Concrete no-op environment: the existing range equals the fresh
target `(0, 10)`. -/
def noopEnv : Env000 :=
  { poolInfoRes := .ok witnessPool,
    positionsRes := .ok [noopPosition],
    dryRun := false, config := {}, balanceA := 0, balanceB := 0,
    removeOutcome := .threw "unused", addOutcome := .threw "unused" }

/-- Witness for C4: the no-op skip at the concrete environment. -/
theorem rebalance_noop_skip_witness :
    rebalancePosition000 noopEnv "0x123" =
      ({ success := true, oldPosition := some (0, 10),
         newPosition := some (0, 10) }, []) :=
  rebalance_noop_skip noopEnv "0x123" witnessPool [noopPosition]
    noopPosition [] rfl rfl (by decide) (by decide) (by decide)

/-- C8: in dry-run mode a rebalance run submits zero transactions and
returns the regular result shape with success true and the freshly
computed target range; when a position exists the result also carries
its old range. -/
theorem dry_run_no_transactions (env : Env000) (poolAddress : String)
    (poolInfo : PoolInfo) (positions : List PositionInfo)
    (hdry : env.dryRun = true)
    (hpool : env.poolInfoRes = .ok poolInfo)
    (hpos : env.positionsRes = .ok positions) :
    (rebalancePosition000 env poolAddress).2 = [] ∧
    (rebalancePosition000 env poolAddress).1.success = true ∧
    (rebalancePosition000 env poolAddress).1.newPosition =
      some (calculateOptimalRange poolInfo.currentTickIndex
        poolInfo.tickSpacing env.config.rangeWidth) ∧
    (∀ position rest,
      positions.filter (fun p => p.poolAddress = poolAddress) =
        position :: rest →
      (rebalancePosition000 env poolAddress).1.oldPosition =
        some (position.tickLower, position.tickUpper)) := by
  rcases hfilter : positions.filter (fun p => p.poolAddress = poolAddress)
    with _ | ⟨position, rest⟩
  · refine ⟨?_, ?_, ?_, ?_⟩ <;>
      simp [rebalancePosition000, hpool, hpos, hfilter, hdry]
  · have key : rebalancePosition000 env poolAddress =
        ({ success := true,
           oldPosition := some (position.tickLower, position.tickUpper),
           newPosition := some (calculateOptimalRange
             poolInfo.currentTickIndex poolInfo.tickSpacing
             env.config.rangeWidth) }, []) := by
      simp only [rebalancePosition000, hpool, hpos, hfilter, hdry]
      split
      · rfl
      · simp
    refine ⟨by rw [key], by rw [key], by rw [key], ?_⟩
    intro p r h
    rw [hfilter] at h
    injection h with h1 h2
    subst h1
    simp [key]

/-- Position far from the fresh target range, used by the dry-run
witness. -/
def farPosition : PositionInfo :=
  { positionId := "pos1", poolAddress := "0x123", tickLower := -1000,
    tickUpper := 1000, liquidity := 1000000, inRange := false }

/-- Concrete dry-run environment: same pool as `noopEnv`, a position far
from the fresh target range, dry-run flag set. -/
def dryRunEnv : Env000 :=
  { poolInfoRes := .ok witnessPool,
    positionsRes := .ok [farPosition],
    dryRun := true, config := {}, balanceA := 0, balanceB := 0,
    removeOutcome := .threw "unused", addOutcome := .threw "unused" }

/-- Witness for C8: the dry-run short-circuit at the concrete
environment. -/
theorem dry_run_no_transactions_witness :
    (rebalancePosition000 dryRunEnv "0x123").2 = [] ∧
    (rebalancePosition000 dryRunEnv "0x123").1.success = true ∧
    (rebalancePosition000 dryRunEnv "0x123").1.newPosition =
      some (calculateOptimalRange witnessPool.currentTickIndex
        witnessPool.tickSpacing dryRunEnv.config.rangeWidth) ∧
    (∀ position rest,
      ([farPosition] : List PositionInfo).filter
          (fun p => p.poolAddress = "0x123") = position :: rest →
      (rebalancePosition000 dryRunEnv "0x123").1.oldPosition =
        some (position.tickLower, position.tickUpper)) :=
  dry_run_no_transactions dryRunEnv "0x123" witnessPool [farPosition]
    rfl rfl rfl

/-! ## Simple-mode orchestrator (src/services/rebalance-simple.ts, part_006)

The simple service talks to the ledger through `getCoins` queries and
`signAndExecuteTransaction` submissions.  Both are modelled by an
explicit oracle state: successive query results and successive execution
outcomes are consumed in call order, and every submission is appended to
a transaction log. -/

/-- One balance record (coin object) of the wallet, as returned by
`suiClient.getCoins`. -/
structure Coin where
  coinObjectId : String
  balance : Nat
  deriving Repr, DecidableEq

/-- Ledger oracle state for a simple-service run: the pending results of
successive `getCoins` queries, the pending outcomes of successive
transaction submissions, and the log of submitted transactions. -/
structure LedgerState where
  coinQueries : List (List Coin)
  execOutcomes : List ExecOutcome
  issued : List TxDesc
  deriving Repr, DecidableEq

/-- Serve the next `getCoins` query (an exhausted oracle serves an empty
wallet). -/
def popCoins (s : LedgerState) : List Coin × LedgerState :=
  match s.coinQueries with
  | [] => ([], s)
  | q :: qrest => (q, { s with coinQueries := qrest })

/-- Submit a transaction: append it to the log and serve the next
execution outcome (an exhausted oracle throws). -/
def submitTx (tx : TxDesc) (s : LedgerState) : ExecOutcome × LedgerState :=
  match s.execOutcomes with
  | [] => (.threw "no response", { s with issued := s.issued ++ [tx] })
  | o :: orest =>
      (o, { s with execOutcomes := orest, issued := s.issued ++ [tx] })

/-- The sort order of the `mergeCoins` comparator (part_006, lines
354-358): `a` precedes `b` when `b.balance ≤ a.balance`, i.e. coins
ordered by balance, largest first. -/
def coinGE (a b : Coin) : Prop := b.balance ≤ a.balance

instance : DecidableRel coinGE := fun a b => Nat.decLe b.balance a.balance

instance : IsTotal Coin coinGE := ⟨fun a b => Nat.le_total b.balance a.balance⟩

instance : IsTrans Coin coinGE := ⟨fun _ _ _ hab hbc => Nat.le_trans hbc hab⟩

/-- Coins sorted largest-balance first, as `allCoins.data.sort` with the
descending comparator.  JavaScript array sort is stable, so any stable
sort produces the same list; the embedding uses insertion sort, which
is stable and structurally recursive. -/
def sortCoinsDesc (coins : List Coin) : List Coin :=
  List.insertionSort coinGE coins

/-- `SimpleRebalanceService.mergeCoins` (part_006, lines 335-437): query
all coin records of the type; with at most one record return without
submitting anything; otherwise sort descending by balance, submit one
transaction merging every other record into the largest one, judge it by
the reported status, then re-query to verify consolidation, allowing one
extra wait-and-re-query cycle before failing. -/
def mergeCoins (coinType : String) (s : LedgerState) :
    Except String Unit × LedgerState :=
  let (allCoins, s1) := popCoins s
  if allCoins.length ≤ 1 then (.ok (), s1)
  else
    match sortCoinsDesc allCoins with
    | [] => (.ok (), s1)
    | primary :: toMerge =>
      let (outcome, s2) := submitTx
        (.merge coinType primary.coinObjectId
          (toMerge.map (fun c => c.coinObjectId))) s1
      match judgeExec "Failed to merge coins" outcome with
      | .error e => (.error e, s2)
      | .ok _ =>
        let (verify1, s3) := popCoins s2
        if verify1.length > 1 then
          let (verify2, s4) := popCoins s3
          if verify2.length > 1 then
            (.error ("Coin merge failed to consolidate " ++ coinType), s4)
          else (.ok (), s4)
        else (.ok (), s3)

/-- The two-attempt retry loop of
`SimpleRebalanceService.removeLiquidity` (part_006, lines 208-241): the
fuel argument counts the remaining iterations of
`for (let attempt = 0; attempt < 2; attempt++)`; `lastErr` threads the
`lastError` variable; when the fuel runs out the last error (or the
after-retries default) is thrown.  The fixed 2-second inter-attempt
delay is a pure wall-clock wait with no observable state, so it does
not appear in the embedding. -/
def removeAttempts : Nat → Option String → LedgerState →
    Except String Unit × LedgerState
  | 0, lastErr, s =>
      (.error (lastErr.getD "Remove liquidity failed after retries"), s)
  | n + 1, _lastErr, s =>
      let (outcome, s1) := submitTx .removeLiq s
      match judgeExec "Remove liquidity failed" outcome with
      | .ok _ => (.ok (), s1)
      | .error e => removeAttempts n (some e) s1

/-- `SimpleRebalanceService.removeLiquidity`: the retry loop with its
bound of 2 attempts. -/
def removeLiquiditySimple (s : LedgerState) :
    Except String Unit × LedgerState :=
  removeAttempts 2 none s

/-- The two-attempt retry loop of `SimpleRebalanceService.addLiquidity`
(part_006, lines 267-328).  Each iteration of
`for (let attempt = 0; attempt < 2; attempt++)` first runs `mergeCoins`
for both pool assets inside the try block, then submits the
open-position transaction and judges it by the reported status; any
raised error becomes `lastError` and the next iteration (if any)
starts over. -/
def addAttempts (coinTypeA coinTypeB : String) : Nat → Option String →
    LedgerState → Except String String × LedgerState
  | 0, lastErr, s =>
      (.error (lastErr.getD "Add liquidity failed after retries"), s)
  | n + 1, _lastErr, s =>
      match mergeCoins coinTypeA s with
      | (.error e, s1) => addAttempts coinTypeA coinTypeB n (some e) s1
      | (.ok _, s1) =>
        match mergeCoins coinTypeB s1 with
        | (.error e, s2) => addAttempts coinTypeA coinTypeB n (some e) s2
        | (.ok _, s2) =>
          let (outcome, s3) := submitTx .addLiq s2
          match judgeExec "Add liquidity failed" outcome with
          | .ok digest => (.ok digest, s3)
          | .error e => addAttempts coinTypeA coinTypeB n (some e) s3

/-- `SimpleRebalanceService.addLiquidity`: the retry loop with its bound
of 2 attempts. -/
def addLiquiditySimple (coinTypeA coinTypeB : String) (s : LedgerState) :
    Except String String × LedgerState :=
  addAttempts coinTypeA coinTypeB 2 none s

/-- Number of transactions of a given description in a log. -/
def countTx (t : TxDesc) (l : List TxDesc) : Nat :=
  l.countP (fun x => x == t)

/-- True exactly on coin-merge transactions. -/
def isMergeTx : TxDesc → Bool
  | .merge _ _ _ => true
  | _ => false

/-- True exactly on add-liquidity transactions. -/
def isAddTx : TxDesc → Bool
  | .addLiq => true
  | _ => false

/-- Serving a coin query does not change the transaction log. -/
theorem popCoins_issued (s : LedgerState) :
    (popCoins s).2.issued = s.issued := by
  rcases s with ⟨qs, es, is0⟩
  cases qs <;> rfl

/-- Submitting a transaction appends exactly that transaction to the
log. -/
theorem submitTx_issued (t : TxDesc) (s : LedgerState) :
    (submitTx t s).2.issued = s.issued ++ [t] := by
  rcases s with ⟨qs, es, is0⟩
  cases es <;> rfl

/-- A `mergeCoins` call appends at most one transaction to the log, and
anything it appends is a coin-merge transaction. -/
theorem mergeCoins_issued_cases (ct : String) (s : LedgerState) :
    ∃ l : List TxDesc, (mergeCoins ct s).2.issued = s.issued ++ l ∧
      l.countP isAddTx = 0 := by
  rcases hpop : popCoins s with ⟨allCoins, s1⟩
  have h1 : s1.issued = s.issued := by
    have := popCoins_issued s
    rw [hpop] at this
    exact this
  simp only [mergeCoins, hpop]
  by_cases hlen : allCoins.length ≤ 1
  · exact ⟨[], by simp [hlen, h1], rfl⟩
  · simp only [if_neg hlen]
    rcases hsort : sortCoinsDesc allCoins with _ | ⟨primary, toMerge⟩
    · exact ⟨[], by simp [h1], rfl⟩
    · rcases hsub : submitTx (.merge ct primary.coinObjectId
          (toMerge.map (fun c => c.coinObjectId))) s1 with ⟨outcome, s2⟩
      have h2 : s2.issued = s.issued ++ [.merge ct primary.coinObjectId
          (toMerge.map (fun c => c.coinObjectId))] := by
        have := submitTx_issued (.merge ct primary.coinObjectId
          (toMerge.map (fun c => c.coinObjectId))) s1
        rw [hsub] at this
        simpa [h1] using this
      refine ⟨[.merge ct primary.coinObjectId
        (toMerge.map (fun c => c.coinObjectId))], ?_, rfl⟩
      simp only [hsub]
      cases hj : judgeExec "Failed to merge coins" outcome with
      | error e => simpa [hj] using h2
      | ok d =>
        simp only [hj]
        rcases hpop3 : popCoins s2 with ⟨verify1, s3⟩
        have h3 : s3.issued = s2.issued := by
          have := popCoins_issued s2
          rw [hpop3] at this
          exact this
        rcases hpop4 : popCoins s3 with ⟨verify2, s4⟩
        have h4 : s4.issued = s3.issued := by
          have := popCoins_issued s3
          rw [hpop4] at this
          exact this
        by_cases hv1 : verify1.length > 1
        · by_cases hv2 : verify2.length > 1 <;>
            simp [hv1, hv2, h4, h3, h2]
        · simp [hv1, h3, h2]

/-- C7: consolidation is idempotent: with at most one balance record the
`mergeCoins` step succeeds and submits no transaction; with more than
one record the sorted list starts with a record of maximal magnitude,
which becomes the merge target, and the run submits exactly one
transaction merging all the other records into it. -/
theorem mergeCoins_spec (coinType : String) (coins : List Coin)
    (qrest : List (List Coin)) (es : List ExecOutcome)
    (is0 : List TxDesc) :
    (coins.length ≤ 1 →
      mergeCoins coinType ⟨coins :: qrest, es, is0⟩ =
        (.ok (), ⟨qrest, es, is0⟩)) ∧
    (1 < coins.length →
      ∃ primary toMerge,
        sortCoinsDesc coins = primary :: toMerge ∧
        (primary :: toMerge).Perm coins ∧
        (∀ c ∈ coins, c.balance ≤ primary.balance) ∧
        (mergeCoins coinType ⟨coins :: qrest, es, is0⟩).2.issued =
          is0 ++ [.merge coinType primary.coinObjectId
            (toMerge.map (fun c => c.coinObjectId))]) := by
  constructor
  · intro hlen
    simp [mergeCoins, popCoins, hlen]
  · intro hlen
    have hperm := List.perm_insertionSort coinGE coins
    have hsorted := List.sorted_insertionSort coinGE coins
    rcases hsort : sortCoinsDesc coins with _ | ⟨primary, toMerge⟩
    · exfalso
      have hl := hperm.length_eq
      rw [show List.insertionSort coinGE coins = sortCoinsDesc coins from rfl,
        hsort] at hl
      simp at hl
      omega
    · have hperm' : (primary :: toMerge).Perm coins := by
        rw [← hsort]
        exact hperm
      have hmax : ∀ c ∈ coins, c.balance ≤ primary.balance := by
        intro c hc
        have hc' : c ∈ primary :: toMerge := hperm'.mem_iff.mpr hc
        rcases List.mem_cons.mp hc' with h | h
        · rw [h]
        · have hp : List.Pairwise coinGE (primary :: toMerge) := by
            rw [← hsort]
            exact hsorted
          exact (List.pairwise_cons.mp hp).1 c h
      refine ⟨primary, toMerge, rfl, hperm', hmax, ?_⟩
      have hpop0 : popCoins ⟨coins :: qrest, es, is0⟩ =
          (coins, ⟨qrest, es, is0⟩) := rfl
      simp only [mergeCoins, hpop0]
      rw [if_neg (by omega), hsort]
      rcases hsub : submitTx (.merge coinType primary.coinObjectId
          (toMerge.map (fun c => c.coinObjectId))) ⟨qrest, es, is0⟩
        with ⟨outcome, s2⟩
      have h2 : s2.issued = is0 ++ [.merge coinType primary.coinObjectId
          (toMerge.map (fun c => c.coinObjectId))] := by
        have := submitTx_issued (.merge coinType primary.coinObjectId
          (toMerge.map (fun c => c.coinObjectId))) ⟨qrest, es, is0⟩
        rw [hsub] at this
        exact this
      simp only [hsub]
      cases hj : judgeExec "Failed to merge coins" outcome with
      | error e => simpa [hj] using h2
      | ok d =>
        simp only [hj]
        rcases hpop3 : popCoins s2 with ⟨verify1, s3⟩
        have h3 : s3.issued = s2.issued := by
          have := popCoins_issued s2
          rw [hpop3] at this
          exact this
        rcases hpop4 : popCoins s3 with ⟨verify2, s4⟩
        have h4 : s4.issued = s3.issued := by
          have := popCoins_issued s3
          rw [hpop4] at this
          exact this
        by_cases hv1 : verify1.length > 1
        · by_cases hv2 : verify2.length > 1 <;>
            simp [hpop3, hpop4, hv1, hv2, h4, h3, h2]
        · simp [hpop3, hv1, h3, h2]

/-- Witness for C7: a wallet holding a single balance record of the
asset is already consolidated, so the step is a no-op and succeeds. -/
theorem mergeCoins_spec_witness :
    mergeCoins "0xA" ⟨[[⟨"c1", 5⟩]], [], []⟩ = (.ok (), ⟨[], [], []⟩) :=
  (mergeCoins_spec "0xA" [⟨"c1", 5⟩] [] [] []).1 (by decide)

/-- A `mergeCoins` call never changes the number of add-liquidity
transactions in the log. -/
theorem mergeCoins_addTx_count (ct : String) (s : LedgerState) :
    ((mergeCoins ct s).2.issued.countP isAddTx) =
      s.issued.countP isAddTx := by
  obtain ⟨l, hl, hcount⟩ := mergeCoins_issued_cases ct s
  rw [hl, List.countP_append, hcount]
  omega

/-- The remove-liquidity retry loop submits at most one transaction per
remaining attempt. -/
theorem removeAttempts_issued_length (n : Nat) :
    ∀ (lastErr : Option String) (s : LedgerState),
      ((removeAttempts n lastErr s).2.issued.length ≤
        s.issued.length + n) := by
  induction n with
  | zero => intro lastErr s; exact Nat.le_add_right _ _
  | succ m ih =>
      intro lastErr s
      rcases hsub : submitTx .removeLiq s with ⟨outcome, s1⟩
      have h0 : s1.issued = s.issued ++ [TxDesc.removeLiq] := by
        have h := submitTx_issued .removeLiq s
        rw [hsub] at h
        exact h
      have h1 : s1.issued.length = s.issued.length + 1 := by simp [h0]
      simp only [removeAttempts, hsub]
      cases judgeExec "Remove liquidity failed" outcome with
      | ok d =>
          show s1.issued.length ≤ s.issued.length + (m + 1)
          omega
      | error e =>
          show (removeAttempts m (some e) s1).2.issued.length ≤
            s.issued.length + (m + 1)
          have := ih (some e) s1
          omega

/-- The add-liquidity retry loop submits at most one add-liquidity
transaction per remaining attempt (coin merges do not count). -/
theorem addAttempts_addTx_count (a b : String) (n : Nat) :
    ∀ (lastErr : Option String) (s : LedgerState),
      ((addAttempts a b n lastErr s).2.issued.countP isAddTx ≤
        s.issued.countP isAddTx + n) := by
  induction n with
  | zero => intro lastErr s; exact Nat.le_add_right _ _
  | succ m ih =>
      intro lastErr s
      rcases hmA : mergeCoins a s with ⟨rA, s1⟩
      have hA : s1.issued.countP isAddTx = s.issued.countP isAddTx := by
        have := mergeCoins_addTx_count a s
        rw [hmA] at this
        exact this
      simp only [addAttempts, hmA]
      cases rA with
      | error e =>
          show List.countP isAddTx
              (addAttempts a b m (some e) s1).2.issued ≤
            List.countP isAddTx s.issued + (m + 1)
          have := ih (some e) s1
          omega
      | ok u =>
          rcases hmB : mergeCoins b s1 with ⟨rB, s2⟩
          have hB : s2.issued.countP isAddTx = s1.issued.countP isAddTx := by
            have := mergeCoins_addTx_count b s1
            rw [hmB] at this
            exact this
          show List.countP isAddTx
              ((match mergeCoins b s1 with
                | (.error e, s2) => addAttempts a b m (some e) s2
                | (.ok _, s2) =>
                  match submitTx .addLiq s2 with
                  | (outcome, s3) =>
                    match judgeExec "Add liquidity failed" outcome with
                    | .ok digest => (Except.ok digest, s3)
                    | .error e =>
                        addAttempts a b m (some e) s3).2.issued) ≤
            List.countP isAddTx s.issued + (m + 1)
          rw [hmB]
          cases rB with
          | error e =>
              show List.countP isAddTx
                  (addAttempts a b m (some e) s2).2.issued ≤
                List.countP isAddTx s.issued + (m + 1)
              have := ih (some e) s2
              omega
          | ok u2 =>
              rcases hsub : submitTx .addLiq s2 with ⟨outcome, s3⟩
              have h3a : s3.issued = s2.issued ++ [TxDesc.addLiq] := by
                have h := submitTx_issued .addLiq s2
                rw [hsub] at h
                exact h
              have h3 : s3.issued.countP isAddTx =
                  s2.issued.countP isAddTx + 1 := by
                simp [h3a, List.countP_append, isAddTx]
              show List.countP isAddTx
                  ((match submitTx .addLiq s2 with
                    | (outcome, s3) =>
                      match judgeExec "Add liquidity failed" outcome with
                      | .ok digest => (Except.ok digest, s3)
                      | .error e =>
                          addAttempts a b m (some e) s3).2.issued) ≤
                List.countP isAddTx s.issued + (m + 1)
              rw [hsub]
              show List.countP isAddTx
                  ((match judgeExec "Add liquidity failed" outcome with
                    | .ok digest => (Except.ok digest, s3)
                    | .error e =>
                        addAttempts a b m (some e) s3).2.issued) ≤
                List.countP isAddTx s.issued + (m + 1)
              cases hj : judgeExec "Add liquidity failed" outcome with
              | ok d =>
                  show List.countP isAddTx s3.issued ≤
                    List.countP isAddTx s.issued + (m + 1)
                  omega
              | error e =>
                  show List.countP isAddTx
                      (addAttempts a b m (some e) s3).2.issued ≤
                    List.countP isAddTx s.issued + (m + 1)
                  have := ih (some e) s3
                  omega

/-- A `mergeCoins` call on a wallet already holding at most one record
of the asset consumes only its coin query: it succeeds and submits
nothing (part_006, lines 347-351). -/
theorem mergeCoins_noop (ct : String) (q : List Coin)
    (qrest : List (List Coin)) (es : List ExecOutcome)
    (is0 : List TxDesc) (hq : q.length ≤ 1) :
    mergeCoins ct ⟨q :: qrest, es, is0⟩ = (.ok (), ⟨qrest, es, is0⟩) := by
  simp [mergeCoins, popCoins, hq]

/-- C6: each ledger-facing operation of the simple service
(remove-liquidity and add-liquidity) makes at most 2 attempts; an
attempt succeeds only when judged by the reported status string, so a
returned result whose status is not the success literal takes exactly
the same path as a thrown error; a first failure is retried once, and
after the second failure the last error is surfaced to the caller.
The add-liquidity conjuncts list the coin queries consumed by the
per-attempt consolidation steps explicitly and take the wallet already
consolidated, so that the submission under scrutiny is the add
transaction itself. -/
theorem transaction_retry_semantics (qs : List (List Coin))
    (es rest : List ExecOutcome) (o₁ o₂ : ExecOutcome)
    (coinTypeA coinTypeB : String) :
    ((removeLiquiditySimple ⟨qs, es, []⟩).2.issued.length ≤ 2) ∧
    ((addLiquiditySimple coinTypeA coinTypeB
        ⟨qs, es, []⟩).2.issued.countP isAddTx ≤ 2) ∧
    (∀ d, judgeExec "Remove liquidity failed" o₁ = .ok d →
      removeLiquiditySimple ⟨qs, o₁ :: rest, []⟩ =
        (.ok (), ⟨qs, rest, [.removeLiq]⟩)) ∧
    (∀ e₁ d₂, judgeExec "Remove liquidity failed" o₁ = .error e₁ →
      judgeExec "Remove liquidity failed" o₂ = .ok d₂ →
      removeLiquiditySimple ⟨qs, o₁ :: o₂ :: rest, []⟩ =
        (.ok (), ⟨qs, rest, [.removeLiq, .removeLiq]⟩)) ∧
    (∀ e₁ e₂, judgeExec "Remove liquidity failed" o₁ = .error e₁ →
      judgeExec "Remove liquidity failed" o₂ = .error e₂ →
      removeLiquiditySimple ⟨qs, o₁ :: o₂ :: rest, []⟩ =
        (.error e₂, ⟨qs, rest, [.removeLiq, .removeLiq]⟩)) ∧
    (∀ st err d, st ≠ "success" →
      removeLiquiditySimple ⟨qs, .returned st err d :: rest, []⟩ =
        removeLiquiditySimple ⟨qs,
          .threw ("Remove liquidity failed" ++ ": " ++
            err.getD "Unknown error") :: rest, []⟩) ∧
    (∀ qA qB qrest d, qA.length ≤ 1 → qB.length ≤ 1 →
      judgeExec "Add liquidity failed" o₁ = .ok d →
      addLiquiditySimple coinTypeA coinTypeB
          ⟨qA :: qB :: qrest, o₁ :: rest, []⟩ =
        (.ok d, ⟨qrest, rest, [.addLiq]⟩)) ∧
    (∀ qA qB qA2 qB2 qrest e₁ d₂, qA.length ≤ 1 → qB.length ≤ 1 →
      qA2.length ≤ 1 → qB2.length ≤ 1 →
      judgeExec "Add liquidity failed" o₁ = .error e₁ →
      judgeExec "Add liquidity failed" o₂ = .ok d₂ →
      addLiquiditySimple coinTypeA coinTypeB
          ⟨qA :: qB :: qA2 :: qB2 :: qrest, o₁ :: o₂ :: rest, []⟩ =
        (.ok d₂, ⟨qrest, rest, [.addLiq, .addLiq]⟩)) ∧
    (∀ qA qB qA2 qB2 qrest e₁ e₂, qA.length ≤ 1 → qB.length ≤ 1 →
      qA2.length ≤ 1 → qB2.length ≤ 1 →
      judgeExec "Add liquidity failed" o₁ = .error e₁ →
      judgeExec "Add liquidity failed" o₂ = .error e₂ →
      addLiquiditySimple coinTypeA coinTypeB
          ⟨qA :: qB :: qA2 :: qB2 :: qrest, o₁ :: o₂ :: rest, []⟩ =
        (.error e₂, ⟨qrest, rest, [.addLiq, .addLiq]⟩)) ∧
    (∀ qA qB qrest st err d, qA.length ≤ 1 → qB.length ≤ 1 →
      st ≠ "success" →
      addLiquiditySimple coinTypeA coinTypeB
          ⟨qA :: qB :: qrest, .returned st err d :: rest, []⟩ =
        addLiquiditySimple coinTypeA coinTypeB ⟨qA :: qB :: qrest,
          .threw ("Add liquidity failed" ++ ": " ++
            err.getD "Unknown error") :: rest, []⟩) := by
  refine ⟨?_, ?_, ?_, ?_, ?_, ?_, ?_, ?_, ?_, ?_⟩
  · simpa using removeAttempts_issued_length 2 none ⟨qs, es, []⟩
  · simpa using addAttempts_addTx_count coinTypeA coinTypeB 2 none
      ⟨qs, es, []⟩
  · intro d hd
    simp [removeLiquiditySimple, removeAttempts, submitTx, hd]
  · intro e₁ d₂ h₁ h₂
    simp [removeLiquiditySimple, removeAttempts, submitTx, h₁, h₂]
  · intro e₁ e₂ h₁ h₂
    simp [removeLiquiditySimple, removeAttempts, submitTx, h₁, h₂]
  · intro st err d hst
    simp [removeLiquiditySimple, removeAttempts, submitTx, judgeExec, hst]
  · intro qA qB qrest d hqA hqB hd
    simp [addLiquiditySimple, addAttempts, mergeCoins_noop _ _ _ _ _ hqA,
      mergeCoins_noop _ _ _ _ _ hqB, submitTx, hd]
  · intro qA qB qA2 qB2 qrest e₁ d₂ hqA hqB hqA2 hqB2 h₁ h₂
    simp [addLiquiditySimple, addAttempts, mergeCoins_noop _ _ _ _ _ hqA,
      mergeCoins_noop _ _ _ _ _ hqB, mergeCoins_noop _ _ _ _ _ hqA2,
      mergeCoins_noop _ _ _ _ _ hqB2, submitTx, h₁, h₂]
  · intro qA qB qA2 qB2 qrest e₁ e₂ hqA hqB hqA2 hqB2 h₁ h₂
    simp [addLiquiditySimple, addAttempts, mergeCoins_noop _ _ _ _ _ hqA,
      mergeCoins_noop _ _ _ _ _ hqB, mergeCoins_noop _ _ _ _ _ hqA2,
      mergeCoins_noop _ _ _ _ _ hqB2, submitTx, h₁, h₂]
  · intro qA qB qrest st err d hqA hqB hst
    simp only [addLiquiditySimple, addAttempts,
      mergeCoins_noop _ _ _ _ _ hqA, mergeCoins_noop _ _ _ _ _ hqB,
      submitTx, judgeExec]
    rw [if_neg hst]

/-- Witness for C6: a remove run and an add run (over a consolidated
wallet) whose two submissions both throw each make exactly two attempts
and surface the second error. -/
theorem transaction_retry_semantics_witness :
    (removeLiquiditySimple ⟨[], [.threw "boom1", .threw "boom2"], []⟩ =
      (.error "boom2", ⟨[], [], [.removeLiq, .removeLiq]⟩)) ∧
    (addLiquiditySimple "0xA" "0xB"
        ⟨[[], [], [], []], [.threw "boom1", .threw "boom2"], []⟩ =
      (.error "boom2", ⟨[], [], [.addLiq, .addLiq]⟩)) :=
  ⟨(transaction_retry_semantics [] [] [] (.threw "boom1")
      (.threw "boom2") "0xA" "0xB").2.2.2.2.1 "boom1" "boom2" rfl rfl,
   (transaction_retry_semantics [] [] [] (.threw "boom1")
      (.threw "boom2") "0xA" "0xB").2.2.2.2.2.2.2.2.1 [] [] [] [] []
      "boom1" "boom2" (by decide) (by decide) (by decide) (by decide)
      rfl rfl⟩

/-- Ledger oracle for the C5 scenario: on the first add-liquidity
attempt the wallet holds two records of asset A (merged successfully,
verified consolidated) and one of asset B, and the add-liquidity
submission returns a non-success status; on the retry the wallet again
reports two records of asset A, so the consolidation step runs again
and submits a second merge transaction, and the add submission fails
again. -/
def rerunState : LedgerState :=
  { coinQueries := [[⟨"a1", 5⟩, ⟨"a2", 3⟩], [⟨"am", 8⟩], [⟨"b1", 7⟩],
      [⟨"a3", 4⟩, ⟨"a4", 2⟩], [⟨"am2", 6⟩], [⟨"b1", 7⟩]],
    execOutcomes := [.returned "success" none "m1",
      .returned "failure" (some "MoveAbort") "t1",
      .returned "success" none "m2",
      .returned "failure" (some "MoveAbort") "t2"],
    issued := [] }

/-- C5: contrary to the once-per-cycle consolidation contract, the
simple service calls `mergeCoins` inside the add-liquidity retry loop,
so a failed first attempt re-runs consolidation on the retry: in the
`rerunState` scenario the run submits two coin-merge transactions for
asset A, one per attempt, before surfacing the add failure. -/
theorem consolidation_rerun_on_retry :
    ((addLiquiditySimple "0xA" "0xB" rerunState).2.issued.countP
      isMergeTx) = 2 ∧
    (addLiquiditySimple "0xA" "0xB" rerunState).2.issued =
      [.merge "0xA" "a1" ["a2"], .addLiq,
       .merge "0xA" "a3" ["a4"], .addLiq] ∧
    (addLiquiditySimple "0xA" "0xB" rerunState).1 =
      .error "Add liquidity failed: MoveAbort" := by
  exact ⟨rfl, rfl, rfl⟩

/-! ## Bot lifecycle (src/bot.ts, part_007 / part_008)

`CetusRebalanceBot` holds `isRunning : boolean` and
`intervalId : NodeJS.Timeout | undefined`.  `start()` returns early when
already running, otherwise sets the flag and schedules one interval
timer; `stop()` returns early when not running, otherwise clears the
flag and cancels the timer.  `performCheck` catches every error and
touches no lifecycle state, so it does not appear in the state machine.
Active interval timers are modelled as a list of timer handles together
with a fresh-handle counter. -/

/-- Lifecycle state of the bot: the `isRunning` flag, the stored
`intervalId`, the set of timers currently scheduled in the runtime, and
the next fresh timer handle. -/
structure BotState where
  isRunning : Bool
  intervalId : Option Nat
  activeTimers : List Nat
  nextTimer : Nat
  deriving Repr, DecidableEq

/-- The state of a freshly constructed bot: not running, no timer. -/
def initialBotState : BotState :=
  { isRunning := false, intervalId := none, activeTimers := [],
    nextTimer := 0 }

/-- `CetusRebalanceBot.start` (part_007, lines 38-56): early return when
already running; otherwise set the flag and schedule one interval
timer. -/
def startBot (s : BotState) : BotState :=
  if s.isRunning then s
  else
    { isRunning := true, intervalId := some s.nextTimer,
      activeTimers := s.activeTimers ++ [s.nextTimer],
      nextTimer := s.nextTimer + 1 }

/-- `CetusRebalanceBot.stop` (part_007, lines 58-72 / part_008, lines
136-150): early return when not running; otherwise clear the flag and,
when a timer handle is stored, cancel that timer. -/
def stopBot (s : BotState) : BotState :=
  if !s.isRunning then s
  else
    match s.intervalId with
    | some t => ⟨false, none, s.activeTimers.erase t, s.nextTimer⟩
    | none => { s with isRunning := false }

/-- `CetusRebalanceBot.getStatus().running` (part_007, lines 95-108). -/
def getStatusRunning (s : BotState) : Bool := s.isRunning

/-- A call to one of the two public lifecycle operations. -/
inductive BotOp where
  | start
  | stop
  deriving Repr, DecidableEq

/-- Apply one lifecycle call. -/
def applyOp (s : BotState) : BotOp → BotState
  | .start => startBot s
  | .stop => stopBot s

/-- Apply a sequence of lifecycle calls, oldest first. -/
def applyOps (s : BotState) (ops : List BotOp) : BotState :=
  ops.foldl applyOp s

/-- `startBot` always leaves the bot running. -/
theorem startBot_isRunning (s : BotState) :
    (startBot s).isRunning = true := by
  by_cases h : s.isRunning <;> simp [startBot, h]

/-- `stopBot` always leaves the bot stopped. -/
theorem stopBot_isRunning (s : BotState) :
    (stopBot s).isRunning = false := by
  by_cases h : s.isRunning
  · cases hid : s.intervalId <;> simp [stopBot, h, hid]
  · simp only [stopBot, h]
    simpa using h

/-- C10: the lifecycle interface is idempotent: `start()` on a running
bot is an identity (so no second timer is scheduled) and leaves
`getStatus().running` true; `stop()` on a stopped bot (including a
fresh one) is an identity and leaves `getStatus().running` false; and
after any call sequence, `getStatus().running` is true exactly when the
last call was `start()`. -/
theorem bot_lifecycle_idempotent :
    (∀ s : BotState, s.isRunning = true →
      startBot s = s ∧ getStatusRunning (startBot s) = true) ∧
    (∀ s : BotState, s.isRunning = false →
      stopBot s = s ∧ getStatusRunning (stopBot s) = false) ∧
    getStatusRunning (stopBot initialBotState) = false ∧
    (∀ (s : BotState) (ops : List BotOp),
      getStatusRunning (applyOps s ops) =
        match ops.getLast? with
        | some .start => true
        | some .stop => false
        | none => getStatusRunning s) := by
  refine ⟨?_, ?_, rfl, ?_⟩
  · intro s h
    refine ⟨by simp [startBot, h], ?_⟩
    simp [getStatusRunning, startBot, h]
  · intro s h
    refine ⟨by simp [stopBot, h], ?_⟩
    simp [getStatusRunning, stopBot, h]
  · intro s ops
    induction ops generalizing s with
    | nil => rfl
    | cons op rest ih =>
        cases rest with
        | nil =>
            cases op with
            | start =>
                simpa [applyOps, applyOp, getStatusRunning] using
                  startBot_isRunning s
            | stop =>
                simpa [applyOps, applyOp, getStatusRunning] using
                  stopBot_isRunning s
        | cons op2 rest2 =>
            have step : applyOps s (op :: op2 :: rest2) =
                applyOps (applyOp s op) (op2 :: rest2) := rfl
            rw [step, ih, List.getLast?_cons_cons]
            cases hl : (op2 :: rest2).getLast? with
            | none =>
                rw [List.getLast?_eq_none_iff] at hl
                exact absurd hl (by simp)
            | some l => cases l <;> rfl

/-- Witness for C10: both idempotence clauses applied at concrete
states. -/
theorem bot_lifecycle_idempotent_witness :
    startBot (startBot initialBotState) = startBot initialBotState ∧
    stopBot initialBotState = initialBotState := by
  constructor
  · exact (bot_lifecycle_idempotent.1 (startBot initialBotState)
      (by decide)).1
  · exact (bot_lifecycle_idempotent.2.1 initialBotState rfl).1

end Cetus
